import Mathlib

/-!
Verification development for the Predix views-service data-migration script
(`migrate-views.js`).  The script's request helpers, bulk fan-out runners and
the orchestration pipeline are shallowly embedded below; promise completion is
modelled by explicit outcome values and the generator pipeline by an ordered
list of phases, each phase being the set of calls launched inside one awaited
step.
-/

namespace MigrateViews

/-- JSON-like values, used for request and response bodies. -/
inductive Json where
  | null : Json
  | bool : Bool → Json
  | num : Int → Json
  | str : String → Json
  | arr : List Json → Json
  | obj : List (String × Json) → Json

/-- A transport response as seen by the request callback: the status code and
the response headers. -/
structure Resp where
  statusCode : Nat
  headers : List (String × String) := []
deriving Repr, DecidableEq, Inhabited

/-- The third callback argument (`responseBody`): either a raw string (what the
transport delivers when `json:false`) or an already-decoded value. -/
inductive RespBody where
  | str : String → RespBody
  | val : Json → RespBody

/-- `charIndexOfAux c l` is the index of the first occurrence of `c` in `l`,
mirroring how `String.prototype.indexOf` scans characters. -/
def charIndexOfAux (c : Char) : List Char → Option Nat
  | [] => none
  | a :: as => if a == c then some 0 else (charIndexOfAux c as).map (fun i => i + 1)

/-- JavaScript `s.indexOf(c)`: first index of `c` in `s`, `-1` when absent. -/
def charIndexOf (s : String) (c : Char) : Int :=
  match charIndexOfAux c s.toList with
  | some i => Int.ofNat i
  | none => -1

/-- The success test of `requestViewsData`, transcribed from
`response.statusCode.toString().indexOf('2') !== 0` (negated): the request is
successful when the index of the first `'2'` in the decimal status string
is `0`. -/
def statusSuccess (n : Nat) : Bool := charIndexOf (toString n) '2' == 0

/-- Spec-side reading of the same condition: the decimal rendering of the
status code starts with the digit `2`. -/
def startsWithTwo (n : Nat) : Bool := (toString n).toList.head? == some '2'

/-- The string interpolated into the token-failure message:
`response ? response.statusCode : 'unknown'`. -/
def statusCodeText : Option Resp → String
  | some r => toString r.statusCode
  | none => "unknown"

/-- Outcome of the `requestToken` promise. -/
inductive TokenOutcome where
  | resolved : Json → TokenOutcome
  | rejected : String → TokenOutcome

/-- Whether a `requestToken` outcome is a resolution. -/
def TokenOutcome.isResolved : TokenOutcome → Bool
  | .resolved _ => true
  | .rejected _ => false

/-- `requestToken`, embedded over the transport callback's inputs: the callback
resolves with `JSON.parse(body)` when there is no error, a response exists and
its status code is `200`; otherwise it rejects with the message naming the
observed status code (or `unknown` with no response).  `parse` stands for
`JSON.parse`. -/
def requestToken (parse : String → Json) (error : Option String)
    (response : Option Resp) (body : String) : TokenOutcome :=
  match error, response with
  | none, some r =>
      if r.statusCode = 200 then TokenOutcome.resolved (parse body)
      else TokenOutcome.rejected
        ("Error retrieving token. Response returned status code " ++ statusCodeText (some r))
  | none, none =>
      TokenOutcome.rejected
        ("Error retrieving token. Response returned status code " ++ statusCodeText none)
  | some _, r =>
      TokenOutcome.rejected
        ("Error retrieving token. Response returned status code " ++ statusCodeText r)

/-- The fields interpolated into the `requestViewsData` failure message:
URL, effective method, zone id, request body, observed status code (`none`
renders as `unknown`) and raw response body. -/
structure RejectInfo where
  url : List String
  method : String
  zoneId : String
  body : Option Json
  statusCode : Option Nat
  responseBody : Option RespBody

/-- Outcome of the `requestViewsData` promise: resolution carries the decoded
response body and the response headers (`{}` when the response is absent). -/
inductive RVOutcome where
  | resolved : Option RespBody → List (String × String) → RVOutcome
  | rejected : RejectInfo → RVOutcome

/-- Whether a `requestViewsData` outcome is a resolution. -/
def RVOutcome.isResolved : RVOutcome → Bool
  | .resolved _ _ => true
  | .rejected _ => false

/-- `(responseBody && typeof responseBody === 'string') ? JSON.parse(responseBody)
: responseBody`: a non-empty string body is JSON-parsed, everything else (the
empty string being falsy in JavaScript) is passed through. -/
def decodeRespBody (parse : String → Json) : Option RespBody → Option RespBody
  | none => none
  | some (RespBody.str s) =>
      if s = "" then some (RespBody.str s) else some (RespBody.val (parse s))
  | some (RespBody.val j) => some (RespBody.val j)

/-- `requestViewsData`, embedded over the transport callback's inputs.  URLs
are modelled as their `/`-separated segments.  The callback rejects when the
transport reports an error or a response exists whose decimal status does not
start with `'2'`; otherwise it resolves with the decoded body and the headers.
The `token` argument is attached as a header by the script and does not
influence the outcome. -/
def requestViewsData (parse : String → Json) (url : List String)
    (zoneId token : String) (method : Option String) (body : Option Json)
    (error : Option String) (response : Option Resp)
    (responseBody : Option RespBody) : RVOutcome :=
  if error.isSome || (match response with
      | some r => !(statusSuccess r.statusCode)
      | none => false) then
    RVOutcome.rejected
      { url := url, method := method.getD "GET", zoneId := zoneId, body := body,
        statusCode := response.map Resp.statusCode, responseBody := responseBody }
  else
    RVOutcome.resolved (decodeRespBody parse responseBody)
      (match response with | some r => r.headers | none => [])

/-- A tag: `{ value }`. -/
structure Tag where
  value : String
deriving Repr, DecidableEq

/-- A card-like item as consumed by `addTags`: an id and an optional tag list
(`item.tags` may be absent on the wire). -/
structure Item where
  id : String
  tags : Option (List Tag)
deriving Repr, DecidableEq

/-- An item as consumed by `deleteData`, which only reads `item.id`. -/
structure BasicItem where
  id : String
deriving Repr, DecidableEq

/-- A card reference inside a deck's card membership, read via `card.id`. -/
structure CardRef where
  id : String
deriving Repr, DecidableEq

/-- `deck.attributes`: carries the optional card membership. -/
structure DeckAttrs where
  cards : Option (List CardRef)
deriving Repr, DecidableEq

/-- A deck as the script reads it: the origin association loop dereferences
`deck.attributes.cards` while the destination association loop dereferences a
top-level `deck.cards`, so both paths are modelled as separate fields. -/
structure Deck where
  id : String
  attributes : Option DeckAttrs
  cards : Option (List CardRef)
  tags : Option (List Tag)
deriving Repr, DecidableEq

/-- One network call issued through `requestViewsData`: effective method, URL
segments, zone id, request body, and the query string appended to the decks
fetch. -/
structure ViewsCall where
  method : String
  url : List String
  zoneId : String
  body : Option Json
  query : Option String := none

/-- A GET issued through `requestViewsData` with defaulted method and no body. -/
def getCall (url : List String) (zoneId : String) : ViewsCall :=
  { method := "GET", url := url, zoneId := zoneId, body := none }

/-- The decks fetch: a GET whose URL string has `?filter[include][cards]`
appended. -/
def getCallQ (url : List String) (query : String) (zoneId : String) : ViewsCall :=
  { method := "GET", url := url, zoneId := zoneId, body := none, query := some query }

/-- A POST issued through `requestViewsData`. -/
def postCall (url : List String) (zoneId : String) (body : Json) : ViewsCall :=
  { method := "POST", url := url, zoneId := zoneId, body := some body }

/-- The settled outcome of one fanned-out per-item request. -/
inductive Settled where
  | fulfilled : Settled
  | rejectedWith : String → Settled

/-- Whether a settled per-item request succeeded. -/
def Settled.isFulfilled : Settled → Bool
  | .fulfilled => true
  | .rejectedWith _ => false

/-- State of an aggregate promise: `resolved`, `rejected`, or still `pending`
(never settles). -/
inductive POutcome where
  | resolved : POutcome
  | rejected : String → POutcome
  | pending : POutcome

/-- Whether an aggregate outcome is a rejection. -/
def POutcome.isRejected : POutcome → Bool
  | .rejected _ => true
  | _ => false

/-- The aggregate built by `new Promise((resolve, reject) =>
{ ... Promise.all(promises).then(() => resolve()); })` in `deleteData`,
`addTags` and the destination association loop: when every launched request
fulfills, `Promise.all` fulfills and the outer promise resolves; when any
request rejects, `Promise.all` rejects but that rejection is never forwarded
to the outer `reject`, so the outer promise stays pending forever. -/
def bulkOutcome (outs : List Settled) : POutcome :=
  if outs.all Settled.isFulfilled then POutcome.resolved else POutcome.pending

namespace deleteData

/-- The DELETE requests `deleteData` launches: one `DELETE {url}/{item.id}`
per item, in list order. -/
def requests (url : List String) (zoneId : String) (items : List BasicItem) :
    List ViewsCall :=
  items.map (fun item =>
    { method := "DELETE", url := url ++ [item.id], zoneId := zoneId, body := none })

/-- The state of the promise `deleteData` returns, given the settled outcome
`env c` of each launched request `c`. -/
def outcome (env : ViewsCall → Settled) (url : List String) (zoneId : String)
    (items : List BasicItem) : POutcome :=
  bulkOutcome ((requests url zoneId items).map env)

end deleteData

/-- The tag-posting request for one item: `POST {url}/{item.id}/tags` whose
body is the mapped list of `{ value: tag.value }` objects. -/
def tagCall (url : List String) (zoneId : String) (item : Item) (ts : List Tag) :
    ViewsCall :=
  { method := "POST", url := url ++ [item.id, "tags"], zoneId := zoneId,
    body := some (Json.arr (ts.map (fun t => Json.obj [("value", Json.str t.value)]))) }

namespace addTags

/-- The guarded body of the `addTags` loop for one element: a request is built
exactly when the item is present, has a `tags` field, and `tags.length > 0`. -/
def requestFor (url : List String) (zoneId : String) : Option Item → Option ViewsCall
  | none => none
  | some item =>
    match item.tags with
    | none => none
    | some ts => if 0 < ts.length then some (tagCall url zoneId item ts) else none

/-- The POST requests `addTags` launches over its input list. -/
def requests (url : List String) (zoneId : String) (list : List (Option Item)) :
    List ViewsCall :=
  list.filterMap (requestFor url zoneId)

/-- The state of the promise `addTags` returns, given the settled outcome of
each launched request. -/
def outcome (env : ViewsCall → Settled) (url : List String) (zoneId : String)
    (list : List (Option Item)) : POutcome :=
  bulkOutcome ((requests url zoneId list).map env)

end addTags

/-- The association request for one deck: `POST {decksUrl}/{deck.id}/cards/add`
whose body is the list of card ids. -/
def assocCall (decksUrl : List String) (zoneId : String) (deck : Deck)
    (cs : List CardRef) : ViewsCall :=
  { method := "POST", url := decksUrl ++ [deck.id, "cards", "add"], zoneId := zoneId,
    body := some (Json.arr (cs.map (fun c => Json.str c.id))) }

/-- The origin-zone association loop (fire-and-forget): one POST per deck that
is present and has a non-empty `deck.attributes.cards`. -/
def originAssocRequests (decksUrl : List String) (zoneId : String)
    (decks : List (Option Deck)) : List ViewsCall :=
  decks.filterMap (fun od =>
    match od with
    | none => none
    | some deck =>
      match deck.attributes with
      | none => none
      | some attrs =>
        match attrs.cards with
        | none => none
        | some cs =>
          if 0 < cs.length then some (assocCall decksUrl zoneId deck cs) else none)

/-- The destination-zone association loop (awaited): one POST per deck that is
present and has a non-empty top-level `deck.cards` field. -/
def destAssocRequests (decksUrl : List String) (zoneId : String)
    (decks : List (Option Deck)) : List ViewsCall :=
  decks.filterMap (fun od =>
    match od with
    | none => none
    | some deck =>
      match deck.cards with
      | none => none
      | some cs =>
        if 0 < cs.length then some (assocCall decksUrl zoneId deck cs) else none)

/-- The configuration record loaded from `views-config.json`. -/
structure Config where
  originalViewsUrl : String
  destinationViewsUrl : String
  originalViewsZoneId : String
  destinationViewsZoneId : String
  originalUaaUrl : String
  destinationUaaUrl : String
  originalUaaCredentials : String
  destinationUaaCredentials : String
  clearDestination : Bool

/-- `getConfig`: `originalCardsUrl = originalViewsUrl + '/api/cards'`. -/
def Config.originalCardsUrl (c : Config) : List String :=
  [c.originalViewsUrl, "api", "cards"]

/-- `getConfig`: `originalDecksUrl = originalViewsUrl + '/api/decks'`. -/
def Config.originalDecksUrl (c : Config) : List String :=
  [c.originalViewsUrl, "api", "decks"]

/-- `getConfig`: `destinationCardsUrl = destinationViewsUrl + '/api/cards'`. -/
def Config.destinationCardsUrl (c : Config) : List String :=
  [c.destinationViewsUrl, "api", "cards"]

/-- `getConfig`: `destinationDecksUrl = destinationViewsUrl + '/api/decks'`. -/
def Config.destinationDecksUrl (c : Config) : List String :=
  [c.destinationViewsUrl, "api", "decks"]

namespace associateStage

/-- All requests launched during the association stage: the origin-zone loop
fires first (synchronously, without keeping the promises), then the yielded
promise launches the destination-zone loop. -/
def issued (cfg : Config) (decks : List (Option Deck)) : List ViewsCall :=
  originAssocRequests cfg.originalDecksUrl cfg.originalViewsZoneId decks
    ++ destAssocRequests cfg.destinationDecksUrl cfg.destinationViewsZoneId decks

/-- The requests whose promises end up inside the yielded `Promise.all`: only
the destination-zone association calls. -/
def awaited (cfg : Config) (decks : List (Option Deck)) : List ViewsCall :=
  destAssocRequests cfg.destinationDecksUrl cfg.destinationViewsZoneId decks

/-- The state of the yielded association promise, given the settled outcome of
each request: it only aggregates the awaited (destination) calls. -/
def outcome (env : ViewsCall → Settled) (cfg : Config)
    (decks : List (Option Deck)) : POutcome :=
  bulkOutcome ((awaited cfg decks).map env)

end associateStage

/-- JSON encoding of a tag, as posted back to the service. -/
def Tag.toJson (t : Tag) : Json := Json.obj [("value", Json.str t.value)]

/-- JSON encoding of a card-like item, used for the bulk-create POST body
(the script re-posts the fetched array as is). -/
def Item.toJson (i : Item) : Json :=
  Json.obj ([("id", Json.str i.id)] ++
    (match i.tags with
     | some ts => [("tags", Json.arr (ts.map Tag.toJson))]
     | none => []))

/-- JSON encoding of a card reference. -/
def CardRef.toJson (c : CardRef) : Json := Json.obj [("id", Json.str c.id)]

/-- JSON encoding of a deck, used for the bulk-create POST body. -/
def Deck.toJson (d : Deck) : Json :=
  Json.obj ([("id", Json.str d.id)] ++
    (match d.attributes with
     | some attrs =>
         [("attributes", Json.obj
            (match attrs.cards with
             | some cs => [("cards", Json.arr (cs.map CardRef.toJson))]
             | none => []))]
     | none => []) ++
    (match d.cards with
     | some cs => [("cards", Json.arr (cs.map CardRef.toJson))]
     | none => []) ++
    (match d.tags with
     | some ts => [("tags", Json.arr (ts.map Tag.toJson))]
     | none => []))

/-- Encode an optional entity, `null` for an absent array element. -/
def optJson (f : α → Json) : Option α → Json
  | none => Json.null
  | some a => f a

/-- A deck viewed through the fields `addTags` reads (`item.id`, `item.tags`). -/
def deckToItem (d : Deck) : Item := { id := d.id, tags := d.tags }

/-- The remote state the pipeline reads: destination cards and decks (for the
clear stage) and origin cards and decks (for the migration stages). -/
structure World where
  destinationCards : List BasicItem
  destinationDecks : List BasicItem
  originCards : List (Option Item)
  originDecks : List (Option Deck)

/-- One remote call of the pipeline: a token exchange or a views-service
request. -/
inductive Call where
  | token : String → String → Call
  | views : ViewsCall → Call

/-- Whether a pipeline call is a views DELETE. -/
def Call.isDelete : Call → Bool
  | .views c => c.method == "DELETE"
  | .token _ _ => false

/-- Whether a pipeline call is a views POST (a create, tag, or association
call — every POST to the views service). -/
def Call.isViewsPost : Call → Bool
  | .views c => c.method == "POST"
  | .token _ _ => false

/-- Whether a pipeline call is a views DELETE under a given base URL. -/
def Call.isDeleteUnder (base : List String) : Call → Bool
  | .views c => (c.method == "DELETE") && base.isPrefixOf c.url
  | .token _ _ => false

/-- The success-path trace of `migrateGenerator`, as an ordered list of
phases.  Each phase is the list of calls launched inside one awaited step of
the coroutine; because every step is `yield`ed, all calls of a phase are
issued, and have settled, before the next phase starts.  The final phase also
contains the origin-zone association calls, which are launched but never
awaited. -/
def migratePhases (cfg : Config) (w : World) : List (List Call) :=
  [[Call.token cfg.originalUaaUrl cfg.originalUaaCredentials],
   [Call.token cfg.destinationUaaUrl cfg.destinationUaaCredentials]]
  ++ (if cfg.clearDestination then
      [[Call.views (getCall cfg.destinationCardsUrl cfg.destinationViewsZoneId)],
       [Call.views (getCall cfg.destinationDecksUrl cfg.destinationViewsZoneId)],
       (deleteData.requests cfg.destinationCardsUrl cfg.destinationViewsZoneId
          w.destinationCards).map Call.views,
       (deleteData.requests cfg.destinationDecksUrl cfg.destinationViewsZoneId
          w.destinationDecks).map Call.views]
    else [])
  ++ [[Call.views (getCall cfg.originalCardsUrl cfg.originalViewsZoneId)],
      [Call.views (postCall cfg.destinationCardsUrl cfg.destinationViewsZoneId
         (Json.arr (w.originCards.map (optJson Item.toJson))))],
      [Call.views (getCall cfg.destinationCardsUrl cfg.destinationViewsZoneId)],
      (addTags.requests cfg.destinationCardsUrl cfg.destinationViewsZoneId
         w.originCards).map Call.views,
      [Call.views (getCallQ cfg.originalDecksUrl "filter[include][cards]"
         cfg.originalViewsZoneId)],
      [Call.views (postCall cfg.destinationDecksUrl cfg.destinationViewsZoneId
         (Json.arr (w.originDecks.map (optJson Deck.toJson))))],
      (addTags.requests cfg.destinationDecksUrl cfg.destinationViewsZoneId
         (w.originDecks.map (Option.map deckToItem))).map Call.views,
      (associateStage.issued cfg w.originDecks).map Call.views]

/-- Every phase holding a `p`-call strictly precedes every phase holding a
`q`-call.  Because each phase of `migratePhases` completes before the next
phase starts, this expresses both issue ordering and completion-before-start
between the two families of calls. -/
def phasesBefore (P : List (List Call)) (p q : Call → Bool) : Prop :=
  ∀ i j : Nat, ((P.getD i []).any p = true) → ((P.getD j []).any q = true) → i < j

/-- A concrete configuration used to instantiate the theorems. -/
def cfgEx : Config :=
  { originalViewsUrl := "origin", destinationViewsUrl := "dest",
    originalViewsZoneId := "oz", destinationViewsZoneId := "dz",
    originalUaaUrl := "ouaa", destinationUaaUrl := "duaa",
    originalUaaCredentials := "ocred", destinationUaaCredentials := "dcred",
    clearDestination := true }

/-- A concrete remote state used to instantiate the theorems. -/
def wEx : World :=
  { destinationCards := [{ id := "c1" }, { id := "c2" }, { id := "c3" }],
    destinationDecks := [{ id := "dk1" }],
    originCards := [some { id := "1", tags := some [{ value := "x" }] },
                    some { id := "2", tags := some [] }],
    originDecks := [some { id := "d1",
                           attributes := some { cards := some [{ id := "1" }, { id := "2" }] },
                           cards := none, tags := none }] }

/-- The transcription of `indexOf('2') === 0` agrees with "the decimal
rendering starts with the digit 2". -/
theorem statusSuccess_eq_startsWithTwo (n : Nat) :
    statusSuccess n = startsWithTwo n := by
  unfold statusSuccess startsWithTwo charIndexOf
  cases h : (toString n).toList with
  | nil => simp [charIndexOfAux]
  | cons a as =>
    by_cases ha : a = '2'
    · subst ha
      simp [charIndexOfAux]
    · have ha2 : (a == '2') = false := by simpa using ha
      simp only [charIndexOfAux, ha2, if_false, Bool.false_eq_true, List.head?]
      cases hrec : charIndexOfAux '2' as with
      | none => simp [ha2]
      | some i =>
        simp only [Option.map_some']
        have h1 : (Int.ofNat (i + 1) == 0) = false := by
          simp only [Int.ofNat_eq_coe, beq_eq_false_iff_ne, ne_eq]
          omega
        have h2 : (some a == some '2') = false := by
          simpa using ha
        rw [h1, h2]

/-- C4: `requestToken` resolves (with the parsed token response) exactly when
the transport reports no error and the HTTP status is 200; every rejection
message names the observed status code, or `unknown` when no response was
received; and on a 200 response with no error the resolved value is the
parsed body. -/
theorem requestToken_resolves_iff_status200 (parse : String → Json)
    (error : Option String) (response : Option Resp) (body : String) :
    ((requestToken parse error response body).isResolved = true ↔
      error = none ∧ ∃ r : Resp, response = some r ∧ r.statusCode = 200)
    ∧ (∀ msg : String,
        requestToken parse error response body = TokenOutcome.rejected msg →
        msg = "Error retrieving token. Response returned status code "
          ++ statusCodeText response)
    ∧ (error = none → ∀ r : Resp, response = some r → r.statusCode = 200 →
        requestToken parse error response body = TokenOutcome.resolved (parse body)) := by
  refine ⟨?_, ?_, ?_⟩
  · cases error with
    | some e => simp [requestToken, TokenOutcome.isResolved]
    | none =>
      cases response with
      | none => simp [requestToken, TokenOutcome.isResolved]
      | some r =>
        by_cases h : r.statusCode = 200 <;>
          simp [requestToken, h, TokenOutcome.isResolved]
  · intro msg hmsg
    cases error with
    | some e => cases hmsg; rfl
    | none =>
      cases response with
      | none => cases hmsg; rfl
      | some r =>
        by_cases h : r.statusCode = 200
        · rw [requestToken, if_pos h] at hmsg
          cases hmsg
        · rw [requestToken, if_neg h] at hmsg
          cases hmsg; rfl
  · intro he r hr h200
    subst he; subst hr
    rw [requestToken, if_pos h200]

/-- C4 witness: with no transport error and a 200 response the token request
resolves. -/
theorem requestToken_resolves_iff_status200_witness :
    (requestToken (fun _ => Json.null) none (some { statusCode := 200 }) "b").isResolved
      = true :=
  (requestToken_resolves_iff_status200 (fun _ => Json.null) none
      (some { statusCode := 200 }) "b").1.mpr
    ⟨rfl, { statusCode := 200 }, rfl, rfl⟩

/-- C5 counterexample: when the transport reports neither an error nor a
response object, `requestViewsData` resolves, although the claimed resolve
condition — a status code whose decimal rendering starts with the digit 2 —
cannot hold with no response; so resolution is not exactly that condition. -/
theorem requestViewsData_resolves_without_response :
    ¬ (((requestViewsData (fun _ => Json.null) ["u"] "z" "t" none none
          none none none).isResolved = true) ↔
        ((none : Option String) = none ∧
          ∃ r : Resp, (none : Option Resp) = some r ∧ startsWithTwo r.statusCode = true)) := by
  intro h
  rcases h.mp rfl with ⟨-, r, hr, -⟩
  cases hr

/-- C5 (amended): `requestViewsData` resolves exactly when there is no
transport error and either no response object was received or the decimal
rendering of the status code starts with the digit 2; every rejection carries
the URL, the effective method, the zone id, the request body, the status code
(absent, rendered `unknown`, when no response was received) and the response
body. -/
theorem requestViewsData_resolve_condition (parse : String → Json)
    (url : List String) (zoneId token : String) (method : Option String)
    (body : Option Json) (error : Option String) (response : Option Resp)
    (responseBody : Option RespBody) :
    ((requestViewsData parse url zoneId token method body error response
        responseBody).isResolved = true ↔
      error = none ∧ (response = none ∨
        ∃ r : Resp, response = some r ∧ startsWithTwo r.statusCode = true))
    ∧ (∀ info : RejectInfo,
        requestViewsData parse url zoneId token method body error response
          responseBody = RVOutcome.rejected info →
        info.url = url ∧ info.method = method.getD "GET" ∧ info.zoneId = zoneId
          ∧ info.body = body ∧ info.statusCode = response.map Resp.statusCode
          ∧ info.responseBody = responseBody) := by
  constructor
  · cases error with
    | some e => simp [requestViewsData, RVOutcome.isResolved]
    | none =>
      cases response with
      | none => simp [requestViewsData, RVOutcome.isResolved]
      | some r =>
        cases hb : statusSuccess r.statusCode with
        | false =>
          have hb2 : startsWithTwo r.statusCode = false := by
            rw [← statusSuccess_eq_startsWithTwo, hb]
          simp [requestViewsData, hb, hb2, RVOutcome.isResolved]
        | true =>
          have hb2 : startsWithTwo r.statusCode = true := by
            rw [← statusSuccess_eq_startsWithTwo, hb]
          simp [requestViewsData, hb, hb2, RVOutcome.isResolved]
  · intro info hinfo
    cases error with
    | some e =>
      simp only [requestViewsData, Option.isSome_some, Bool.true_or, if_true,
        RVOutcome.rejected.injEq] at hinfo
      subst hinfo
      exact ⟨rfl, rfl, rfl, rfl, rfl, rfl⟩
    | none =>
      cases response with
      | none =>
        simp [requestViewsData] at hinfo
      | some r =>
        cases hb : statusSuccess r.statusCode with
        | false =>
          simp only [requestViewsData, Option.isSome_none, Bool.false_or, hb,
            Bool.not_false, if_true, RVOutcome.rejected.injEq] at hinfo
          subst hinfo
          exact ⟨rfl, rfl, rfl, rfl, rfl, rfl⟩
        | true =>
          simp [requestViewsData, hb] at hinfo

/-- C5 amended witness: a 201 response with no transport error resolves. -/
theorem requestViewsData_resolve_condition_witness :
    (requestViewsData (fun _ => Json.null) ["u"] "z" "t" none none none
        (some { statusCode := 201 }) none).isResolved = true :=
  (requestViewsData_resolve_condition (fun _ => Json.null) ["u"] "z" "t" none none
      none (some { statusCode := 201 }) none).1.mpr
    ⟨rfl, Or.inr ⟨{ statusCode := 201 }, rfl, rfl⟩⟩

/-- C10: when the transport reports neither an error nor a response object,
`requestViewsData` resolves — with the decoded pass-through body and an empty
headers object — rather than rejecting; an absent body stays absent and a
non-string body is passed through unchanged. -/
theorem requestViewsData_no_response_resolves (parse : String → Json)
    (url : List String) (zoneId token : String) (method : Option String)
    (body : Option Json) (responseBody : Option RespBody) :
    requestViewsData parse url zoneId token method body none none responseBody
      = RVOutcome.resolved (decodeRespBody parse responseBody) []
    ∧ decodeRespBody parse none = none
    ∧ (∀ j : Json, decodeRespBody parse (some (RespBody.val j)) = some (RespBody.val j)) :=
  ⟨rfl, rfl, fun _ => rfl⟩

/-- The aggregate promise resolves exactly when every launched request
fulfilled; otherwise it is pending, never rejected. -/
theorem bulkOutcome_resolved_iff (outs : List Settled) :
    bulkOutcome outs = POutcome.resolved ↔ outs.all Settled.isFulfilled = true := by
  by_cases h : outs.all Settled.isFulfilled = true
  · simp [bulkOutcome, h]
  · simp [bulkOutcome, h]

/-- C1 (code bug): with two cards where the second DELETE rejects, both
DELETE requests are still issued (the sibling action runs to completion), but
the aggregate promise returned by `deleteData` neither resolves nor rejects:
the `Promise.all` rejection is never forwarded to the outer `reject`, so the
aggregate stays pending forever instead of failing as claimed. -/
theorem deleteData_failure_leaves_aggregate_pending :
    deleteData.requests ["u"] "z" [{ id := "a" }, { id := "b" }] =
      [{ method := "DELETE", url := ["u", "a"], zoneId := "z", body := none },
       { method := "DELETE", url := ["u", "b"], zoneId := "z", body := none }]
    ∧ deleteData.outcome
        (fun c => if c.url = ["u", "b"] then Settled.rejectedWith "boom"
                  else Settled.fulfilled)
        ["u"] "z" [{ id := "a" }, { id := "b" }] = POutcome.pending
    ∧ (deleteData.outcome
        (fun c => if c.url = ["u", "b"] then Settled.rejectedWith "boom"
                  else Settled.fulfilled)
        ["u"] "z" [{ id := "a" }, { id := "b" }]).isRejected = false :=
  ⟨rfl, rfl, rfl⟩

/-- C8: the bulk runners resolve once every launched action settles
successfully: on the empty input list they issue no request (the per-item
action is never invoked) and resolve immediately, and in general the returned
promise resolves exactly when every issued request fulfilled. -/
theorem bulk_runner_empty_resolves_immediately (url : List String)
    (zoneId : String) (env : ViewsCall → Settled) (items : List BasicItem)
    (list : List (Option Item)) :
    (deleteData.requests url zoneId [] = [] ∧
      deleteData.outcome env url zoneId [] = POutcome.resolved)
    ∧ (addTags.requests url zoneId [] = [] ∧
      addTags.outcome env url zoneId [] = POutcome.resolved)
    ∧ (deleteData.outcome env url zoneId items = POutcome.resolved ↔
        ∀ c ∈ deleteData.requests url zoneId items, (env c).isFulfilled = true)
    ∧ (addTags.outcome env url zoneId list = POutcome.resolved ↔
        ∀ c ∈ addTags.requests url zoneId list, (env c).isFulfilled = true) := by
  refine ⟨⟨rfl, rfl⟩, ⟨rfl, rfl⟩, ?_, ?_⟩
  · rw [deleteData.outcome, bulkOutcome_resolved_iff]
    simp [List.all_map, List.all_eq_true, Function.comp]
  · rw [addTags.outcome, bulkOutcome_resolved_iff]
    simp [List.all_map, List.all_eq_true, Function.comp]

/-- C8 witness: a singleton list whose delete fulfills resolves. -/
theorem bulk_runner_empty_resolves_immediately_witness :
    deleteData.outcome (fun _ => Settled.fulfilled) ["u"] "z" [{ id := "a" }]
      = POutcome.resolved :=
  (bulk_runner_empty_resolves_immediately ["u"] "z" (fun _ => Settled.fulfilled)
      [{ id := "a" }] []).2.2.1.mpr (fun _ _ => rfl)

/-- Spec-side counting predicate for `addTags`: the element is present and its
tag list is present and non-empty. -/
def hasNonemptyTags : Option Item → Bool
  | some item =>
    match item.tags with
    | some ts => 0 < ts.length
    | none => false
  | none => false

/-- A request is built for an element exactly when it counts as tagged. -/
theorem requestFor_isSome (url : List String) (zoneId : String)
    (oi : Option Item) :
    (addTags.requestFor url zoneId oi).isSome = hasNonemptyTags oi := by
  cases oi with
  | none => rfl
  | some item =>
    cases h : item.tags with
    | none => simp [addTags.requestFor, hasNonemptyTags, h]
    | some ts =>
      by_cases hl : 0 < ts.length <;>
        simp [addTags.requestFor, hasNonemptyTags, h, hl]

/-- C6: `addTags` issues exactly one tag POST per item whose tag list is
non-empty — to `{url}/{id}/tags` with the item's tag values — and no request
for an absent item, an absent tag list or an empty one; and skipping every
item is not an error: the returned promise still resolves. -/
theorem addTags_posts_exactly_tagged_items (url : List String) (zoneId : String)
    (list : List (Option Item)) :
    (addTags.requests url zoneId list).length = list.countP hasNonemptyTags
    ∧ (∀ c : ViewsCall, c ∈ addTags.requests url zoneId list ↔
        ∃ item : Item, ∃ ts : List Tag, some item ∈ list ∧ item.tags = some ts
          ∧ 0 < ts.length ∧ c = tagCall url zoneId item ts)
    ∧ (list.all (fun oi => !(hasNonemptyTags oi)) = true →
        ∀ env : ViewsCall → Settled,
          addTags.outcome env url zoneId list = POutcome.resolved) := by
  have hlen : ∀ l : List (Option Item),
      (addTags.requests url zoneId l).length = l.countP hasNonemptyTags := by
    intro l
    induction l with
    | nil => rfl
    | cons a l ih =>
      rw [addTags.requests, List.filterMap_cons, List.countP_cons,
          ← requestFor_isSome url zoneId a]
      cases addTags.requestFor url zoneId a with
      | none => simpa [addTags.requests] using ih
      | some c =>
        have ih2 : (List.filterMap (addTags.requestFor url zoneId) l).length
            = List.countP hasNonemptyTags l := ih
        simp [List.length_cons, ih2]
  refine ⟨hlen list, ?_, ?_⟩
  · intro c
    rw [addTags.requests, List.mem_filterMap]
    constructor
    · rintro ⟨oi, hoi, hfa⟩
      cases oi with
      | none => simp [addTags.requestFor] at hfa
      | some item =>
        cases hts : item.tags with
        | none => simp [addTags.requestFor, hts] at hfa
        | some ts =>
          by_cases hl : 0 < ts.length
          · simp only [addTags.requestFor, hts] at hfa
            rw [if_pos hl] at hfa
            exact ⟨item, ts, hoi, hts, hl, by injection hfa with h; exact h.symm⟩
          · simp only [addTags.requestFor, hts] at hfa
            rw [if_neg hl] at hfa
            cases hfa
    · rintro ⟨item, ts, hmem2, hts, hl, rfl⟩
      exact ⟨some item, hmem2, by simp [addTags.requestFor, hts, hl]⟩
  · intro hall env
    have h0 : (addTags.requests url zoneId list).length = 0 := by
      rw [hlen list, List.countP_eq_zero]
      intro oi hoi
      have := (List.all_eq_true.mp hall) oi hoi
      simpa using this
    have hnil : addTags.requests url zoneId list = [] :=
      List.eq_nil_of_length_eq_zero h0
    rw [addTags.outcome, hnil]
    rfl

/-- C6 witness: of two origin cards, only the one with a tag produces a tag
POST. -/
theorem addTags_posts_exactly_tagged_items_witness :
    tagCall ["u"] "z" { id := "1", tags := some [{ value := "x" }] } [{ value := "x" }]
      ∈ addTags.requests ["u"] "z"
        [some { id := "1", tags := some [{ value := "x" }] },
         some { id := "2", tags := some [] }] :=
  ((addTags_posts_exactly_tagged_items ["u"] "z"
      [some { id := "1", tags := some [{ value := "x" }] },
       some { id := "2", tags := some [] }]).2.1 _).mpr
    ⟨{ id := "1", tags := some [{ value := "x" }] }, [{ value := "x" }],
      List.mem_cons_self _ _, rfl, by decide, rfl⟩

/-- The MigrateCards tag step: after the bulk create, the script re-fetches the
destination cards, but the tag POSTs are built from the ORIGIN `cards` list;
the `destinationCards` value is dead. -/
def migrateCardsTagRequests (cfg : Config) (originCards : List (Option Item))
    (destinationCards : List (Option Item)) : List ViewsCall :=
  addTags.requests cfg.destinationCardsUrl cfg.destinationViewsZoneId originCards

/-- C2 (code bug): in the MigrateCards stage the tag POST for origin card `1`
goes to `{destinationCardsUrl}/1/tags` — the ORIGIN card id — even though the
destination re-fetch reports the server-assigned id `dest-1` for its
counterpart; the re-fetched destination cards do not influence the tag
requests at all. -/
theorem migrateCards_tag_posts_use_origin_ids :
    (migrateCardsTagRequests cfgEx
        [some { id := "1", tags := some [{ value := "x" }] },
         some { id := "2", tags := some [] }]
        [some { id := "dest-1", tags := some [{ value := "x" }] },
         some { id := "dest-2", tags := some [] }]).map ViewsCall.url
      = [["dest", "api", "cards", "1", "tags"]]
    ∧ migrateCardsTagRequests cfgEx
        [some { id := "1", tags := some [{ value := "x" }] },
         some { id := "2", tags := some [] }]
        [some { id := "dest-1", tags := some [{ value := "x" }] },
         some { id := "dest-2", tags := some [] }]
      = migrateCardsTagRequests cfgEx
        [some { id := "1", tags := some [{ value := "x" }] },
         some { id := "2", tags := some [] }] []
    ∧ (["dest", "api", "cards", "1", "tags"] : List String)
        ≠ ["dest", "api", "cards", "dest-1", "tags"] :=
  ⟨rfl, rfl, by decide⟩

/-- The deck of the spec's association scenario: card membership under
`attributes.cards`, as the data model prescribes; no top-level `cards`. -/
def deckD1 : Deck :=
  { id := "d1", attributes := some { cards := some [{ id := "1" }, { id := "2" }] },
    cards := none, tags := none }

/-- C3 (code bug): the destination association loop tests the top-level
`deck.cards`, not `deck.attributes.cards`, so the scenario deck receives NO
destination association POST at all, while the origin loop three lines above
does build the `.../d1/cards/add` POST from the very same deck. -/
theorem destination_association_misses_deck :
    destAssocRequests cfgEx.destinationDecksUrl cfgEx.destinationViewsZoneId
        [some deckD1] = []
    ∧ originAssocRequests cfgEx.originalDecksUrl cfgEx.originalViewsZoneId
        [some deckD1]
      = [{ method := "POST",
           url := ["origin", "api", "decks", "d1", "cards", "add"],
           zoneId := "oz",
           body := some (Json.arr [Json.str "1", Json.str "2"]) }] :=
  ⟨rfl, rfl⟩

/-- C9: in the association stage every origin-zone association POST (one per
present deck with non-empty `attributes.cards`, to
`{originalDecksUrl}/{id}/cards/add`) is launched but never awaited: the
yielded promise aggregates only the destination-zone calls, so its outcome is
unchanged under any reassignment of the origin calls' outcomes, and it
resolves whenever all awaited destination calls fulfill — no origin-call
failure can fail the pipeline. -/
theorem origin_association_fire_and_forget (cfg : Config)
    (decks : List (Option Deck)) (env env2 : ViewsCall → Settled) :
    (∀ c : ViewsCall,
        c ∈ originAssocRequests cfg.originalDecksUrl cfg.originalViewsZoneId decks →
        c ∈ associateStage.issued cfg decks)
    ∧ (∀ c : ViewsCall,
        c ∈ originAssocRequests cfg.originalDecksUrl cfg.originalViewsZoneId decks ↔
        ∃ deck : Deck, ∃ attrs : DeckAttrs, ∃ cs : List CardRef,
          some deck ∈ decks ∧ deck.attributes = some attrs ∧ attrs.cards = some cs
          ∧ 0 < cs.length
          ∧ c = assocCall cfg.originalDecksUrl cfg.originalViewsZoneId deck cs)
    ∧ ((∀ c ∈ associateStage.awaited cfg decks, env c = env2 c) →
        associateStage.outcome env cfg decks = associateStage.outcome env2 cfg decks)
    ∧ ((∀ c ∈ associateStage.awaited cfg decks, (env c).isFulfilled = true) →
        associateStage.outcome env cfg decks = POutcome.resolved) := by
  refine ⟨?_, ?_, ?_, ?_⟩
  · intro c hc
    exact List.mem_append_left _ hc
  · intro c
    rw [originAssocRequests, List.mem_filterMap]
    constructor
    · rintro ⟨od, hod, hf⟩
      cases od with
      | none => cases hf
      | some deck =>
        cases hattrs : deck.attributes with
        | none => simp [hattrs] at hf
        | some attrs =>
          cases hcs : attrs.cards with
          | none => simp [hattrs, hcs] at hf
          | some cs =>
            by_cases hl : 0 < cs.length
            · simp only [hattrs, hcs] at hf
              rw [if_pos hl] at hf
              exact ⟨deck, attrs, cs, hod, hattrs, hcs, hl,
                by injection hf with h; exact h.symm⟩
            · simp only [hattrs, hcs] at hf
              rw [if_neg hl] at hf
              cases hf
    · rintro ⟨deck, attrs, cs, hmem2, hattrs, hcs, hl, rfl⟩
      exact ⟨some deck, hmem2, by simp [hattrs, hcs, hl]⟩
  · intro hagree
    rw [associateStage.outcome, associateStage.outcome]
    congr 1
    exact List.map_congr_left hagree
  · intro hful
    rw [associateStage.outcome, bulkOutcome_resolved_iff, List.all_eq_true]
    intro x hx
    rcases List.mem_map.mp hx with ⟨c, hc, rfl⟩
    exact hful c hc

/-- C9 witness: a deck with origin-side membership only — its origin call is
launched and rejected, yet the awaited aggregate still resolves. -/
theorem origin_association_fire_and_forget_witness :
    associateStage.outcome (fun _ => Settled.rejectedWith "down") cfgEx
      [some { id := "d", attributes := some { cards := some [{ id := "c1" }] },
              cards := none, tags := none }] = POutcome.resolved :=
  (origin_association_fire_and_forget cfgEx
      [some { id := "d", attributes := some { cards := some [{ id := "c1" }] },
              cards := none, tags := none }]
      (fun _ => Settled.rejectedWith "down")
      (fun _ => Settled.rejectedWith "down")).2.2.2
    (fun c hc => by cases hc)

/-- Unfolding lemma: a views call is a DELETE when its method is `DELETE`. -/
theorem isDelete_views (c : ViewsCall) :
    Call.isDelete (Call.views c) = (c.method == "DELETE") := rfl

/-- Unfolding lemma: a views call is a POST when its method is `POST`. -/
theorem isViewsPost_views (c : ViewsCall) :
    Call.isViewsPost (Call.views c) = (c.method == "POST") := rfl

/-- Unfolding lemma for the scoped DELETE classifier. -/
theorem isDeleteUnder_views (base : List String) (c : ViewsCall) :
    Call.isDeleteUnder base (Call.views c)
      = ((c.method == "DELETE") && base.isPrefixOf c.url) := rfl

/-- A mapped phase has no `p`-call when `p` rejects every underlying views
call. -/
theorem any_views_eq_false (p : Call → Bool) (cs : List ViewsCall)
    (h : ∀ c ∈ cs, p (Call.views c) = false) :
    (cs.map Call.views).any p = false := by
  rw [List.any_eq_false]
  intro x hx
  rcases List.mem_map.mp hx with ⟨c, hc, rfl⟩
  simp [h c hc]

/-- Every request `deleteData` issues is a DELETE on `{url}/{item.id}`. -/
theorem deleteData_requests_shape (url : List String) (zoneId : String)
    (items : List BasicItem) :
    ∀ c ∈ deleteData.requests url zoneId items,
      c.method = "DELETE" ∧ ∃ item : BasicItem, item ∈ items ∧ c.url = url ++ [item.id] := by
  intro c hc
  rcases List.mem_map.mp hc with ⟨item, hitem, rfl⟩
  exact ⟨rfl, item, hitem, rfl⟩

/-- Every request `addTags` issues is a POST. -/
theorem addTags_requests_method (url : List String) (zoneId : String)
    (list : List (Option Item)) :
    ∀ c ∈ addTags.requests url zoneId list, c.method = "POST" := by
  intro c hc
  rcases List.mem_filterMap.mp hc with ⟨oi, hoi, hf⟩
  cases oi with
  | none => cases hf
  | some item =>
    cases hts : item.tags with
    | none => simp [addTags.requestFor, hts] at hf
    | some ts =>
      by_cases hl : 0 < ts.length
      · simp only [addTags.requestFor, hts] at hf
        rw [if_pos hl] at hf
        injection hf with h2
        rw [← h2]
        rfl
      · simp only [addTags.requestFor, hts] at hf
        rw [if_neg hl] at hf
        cases hf

/-- Every request of the origin association loop is a POST. -/
theorem originAssocRequests_method (decksUrl : List String) (zoneId : String)
    (decks : List (Option Deck)) :
    ∀ c ∈ originAssocRequests decksUrl zoneId decks, c.method = "POST" := by
  intro c hc
  rcases List.mem_filterMap.mp hc with ⟨od, hod, hf⟩
  cases od with
  | none => cases hf
  | some deck =>
    cases hattrs : deck.attributes with
    | none => simp [hattrs] at hf
    | some attrs =>
      cases hcs : attrs.cards with
      | none => simp [hattrs, hcs] at hf
      | some cs =>
        by_cases hl : 0 < cs.length
        · simp only [hattrs, hcs] at hf
          rw [if_pos hl] at hf
          injection hf with h2
          rw [← h2]
          rfl
        · simp only [hattrs, hcs] at hf
          rw [if_neg hl] at hf
          cases hf

/-- Every request of the destination association loop is a POST. -/
theorem destAssocRequests_method (decksUrl : List String) (zoneId : String)
    (decks : List (Option Deck)) :
    ∀ c ∈ destAssocRequests decksUrl zoneId decks, c.method = "POST" := by
  intro c hc
  rcases List.mem_filterMap.mp hc with ⟨od, hod, hf⟩
  cases od with
  | none => cases hf
  | some deck =>
    cases hcs : deck.cards with
    | none => simp [hcs] at hf
    | some cs =>
      by_cases hl : 0 < cs.length
      · simp only [hcs] at hf
        rw [if_pos hl] at hf
        injection hf with h2
        rw [← h2]
        rfl
      · simp only [hcs] at hf
        rw [if_neg hl] at hf
        cases hf

/-- Every request of the association stage is a POST. -/
theorem associateStage_issued_method (cfg : Config) (decks : List (Option Deck)) :
    ∀ c ∈ associateStage.issued cfg decks, c.method = "POST" := by
  intro c hc
  rcases List.mem_append.mp hc with h2 | h2
  · exact originAssocRequests_method _ _ _ c h2
  · exact destAssocRequests_method _ _ _ c h2

/-- The cards collection URL is never a prefix of a decks item URL. -/
theorem cards_base_not_prefix (base id2 : String) :
    (([base, "api", "cards"] : List String).isPrefixOf
        (([base, "api", "decks"] : List String) ++ [id2])) = false := by
  have h : (("cards" : String) == "decks") = false := by decide
  simp [List.isPrefixOf, h]

/-- The decks collection URL is never a prefix of a cards item URL. -/
theorem decks_base_not_prefix (base id2 : String) :
    (([base, "api", "decks"] : List String).isPrefixOf
        (([base, "api", "cards"] : List String) ++ [id2])) = false := by
  have h : (("decks" : String) == "cards") = false := by decide
  simp [List.isPrefixOf, h]

/-- `migratePhases` with the clear flag set, in phase-list normal form. -/
theorem migratePhases_clear_eq (cfg : Config) (w : World)
    (h : cfg.clearDestination = true) :
    migratePhases cfg w =
      [[Call.token cfg.originalUaaUrl cfg.originalUaaCredentials],
       [Call.token cfg.destinationUaaUrl cfg.destinationUaaCredentials],
       [Call.views (getCall cfg.destinationCardsUrl cfg.destinationViewsZoneId)],
       [Call.views (getCall cfg.destinationDecksUrl cfg.destinationViewsZoneId)],
       (deleteData.requests cfg.destinationCardsUrl cfg.destinationViewsZoneId
          w.destinationCards).map Call.views,
       (deleteData.requests cfg.destinationDecksUrl cfg.destinationViewsZoneId
          w.destinationDecks).map Call.views,
       [Call.views (getCall cfg.originalCardsUrl cfg.originalViewsZoneId)],
       [Call.views (postCall cfg.destinationCardsUrl cfg.destinationViewsZoneId
          (Json.arr (w.originCards.map (optJson Item.toJson))))],
       [Call.views (getCall cfg.destinationCardsUrl cfg.destinationViewsZoneId)],
       (addTags.requests cfg.destinationCardsUrl cfg.destinationViewsZoneId
          w.originCards).map Call.views,
       [Call.views (getCallQ cfg.originalDecksUrl "filter[include][cards]"
          cfg.originalViewsZoneId)],
       [Call.views (postCall cfg.destinationDecksUrl cfg.destinationViewsZoneId
          (Json.arr (w.originDecks.map (optJson Deck.toJson))))],
       (addTags.requests cfg.destinationDecksUrl cfg.destinationViewsZoneId
          (w.originDecks.map (Option.map deckToItem))).map Call.views,
       (associateStage.issued cfg w.originDecks).map Call.views] := by
  rw [migratePhases, if_pos h]
  rfl

/-- With the clear flag set, a phase containing a DELETE call can only be the
card-deletion phase (index 4) or the deck-deletion phase (index 5). -/
theorem delete_phases_clear (cfg : Config) (w : World)
    (h : cfg.clearDestination = true) :
    ∀ i : Nat, (((migratePhases cfg w).getD i []).any Call.isDelete = true) →
      i = 4 ∨ i = 5 := by
  have hGD : ((("GET" : String) == "DELETE")) = false := by decide
  have hPD : ((("POST" : String) == "DELETE")) = false := by decide
  have hpdel : ∀ c : ViewsCall, c.method = "POST" →
      Call.isDelete (Call.views c) = false := by
    intro c hc
    rw [isDelete_views, hc, hPD]
  intro i hi
  rw [migratePhases_clear_eq cfg w h] at hi
  by_cases hlt : i < 14
  · interval_cases i
    · simp [Call.isDelete] at hi
    · simp [Call.isDelete] at hi
    · simp [isDelete_views, getCall, hGD] at hi
    · simp [isDelete_views, getCall, hGD] at hi
    · exact Or.inl rfl
    · exact Or.inr rfl
    · simp [isDelete_views, getCall, hGD] at hi
    · simp [isDelete_views, postCall, hPD] at hi
    · simp [isDelete_views, getCall, hGD] at hi
    · have hi2 : ((addTags.requests cfg.destinationCardsUrl
          cfg.destinationViewsZoneId w.originCards).map Call.views).any
            Call.isDelete = true := hi
      rw [any_views_eq_false Call.isDelete _
        (fun c hc => hpdel c (addTags_requests_method _ _ _ c hc))] at hi2
      cases hi2
    · simp [isDelete_views, getCallQ, hGD] at hi
    · simp [isDelete_views, postCall, hPD] at hi
    · have hi2 : ((addTags.requests cfg.destinationDecksUrl
          cfg.destinationViewsZoneId
          (w.originDecks.map (Option.map deckToItem))).map Call.views).any
            Call.isDelete = true := hi
      rw [any_views_eq_false Call.isDelete _
        (fun c hc => hpdel c (addTags_requests_method _ _ _ c hc))] at hi2
      cases hi2
    · have hi2 : ((associateStage.issued cfg w.originDecks).map Call.views).any
          Call.isDelete = true := hi
      rw [any_views_eq_false Call.isDelete _
        (fun c hc => hpdel c (associateStage_issued_method _ _ c hc))] at hi2
      cases hi2
  · exfalso
    rw [List.getD_eq_default] at hi
    · simp at hi
    · simp only [List.length_cons, List.length_nil]
      omega

/-- With the clear flag set, any phase containing a views POST comes after the
two deletion phases. -/
theorem post_phases_clear (cfg : Config) (w : World)
    (h : cfg.clearDestination = true) :
    ∀ j : Nat, (((migratePhases cfg w).getD j []).any Call.isViewsPost = true) →
      6 ≤ j := by
  have hGP : ((("GET" : String) == "POST")) = false := by decide
  have hDP : ((("DELETE" : String) == "POST")) = false := by decide
  have hppost : ∀ c : ViewsCall, c.method = "DELETE" →
      Call.isViewsPost (Call.views c) = false := by
    intro c hc
    rw [isViewsPost_views, hc, hDP]
  intro j hj
  by_cases hlt : j < 6
  · exfalso
    rw [migratePhases_clear_eq cfg w h] at hj
    interval_cases j
    · simp [Call.isViewsPost] at hj
    · simp [Call.isViewsPost] at hj
    · simp [isViewsPost_views, getCall, hGP] at hj
    · simp [isViewsPost_views, getCall, hGP] at hj
    · have hj2 : ((deleteData.requests cfg.destinationCardsUrl
          cfg.destinationViewsZoneId w.destinationCards).map Call.views).any
            Call.isViewsPost = true := hj
      rw [any_views_eq_false Call.isViewsPost _
        (fun c hc => hppost c (deleteData_requests_shape _ _ _ c hc).1)] at hj2
      cases hj2
    · have hj2 : ((deleteData.requests cfg.destinationDecksUrl
          cfg.destinationViewsZoneId w.destinationDecks).map Call.views).any
            Call.isViewsPost = true := hj
      rw [any_views_eq_false Call.isViewsPost _
        (fun c hc => hppost c (deleteData_requests_shape _ _ _ c hc).1)] at hj2
      cases hj2
  · omega

/-- A DELETE scoped under a base URL is in particular a DELETE. -/
theorem deleteUnder_implies_delete (base : List String) (c : Call)
    (h : Call.isDeleteUnder base c = true) : Call.isDelete c = true := by
  cases c with
  | token u cr => cases h
  | views vc =>
    rw [isDeleteUnder_views, Bool.and_eq_true] at h
    rw [isDelete_views]
    exact h.1

/-- No deck-deletion request is scoped under the cards collection URL. -/
theorem deckDeletes_not_under_cards (cfg : Config) (w : World) :
    ((deleteData.requests cfg.destinationDecksUrl cfg.destinationViewsZoneId
        w.destinationDecks).map Call.views).any
      (Call.isDeleteUnder cfg.destinationCardsUrl) = false := by
  apply any_views_eq_false
  intro c hc
  rcases deleteData_requests_shape _ _ _ c hc with ⟨hm, item, hitem, hurl⟩
  rw [isDeleteUnder_views, hurl, hm]
  simp only [Config.destinationCardsUrl, Config.destinationDecksUrl,
    cards_base_not_prefix, Bool.and_false]

/-- No card-deletion request is scoped under the decks collection URL. -/
theorem cardDeletes_not_under_decks (cfg : Config) (w : World) :
    ((deleteData.requests cfg.destinationCardsUrl cfg.destinationViewsZoneId
        w.destinationCards).map Call.views).any
      (Call.isDeleteUnder cfg.destinationDecksUrl) = false := by
  apply any_views_eq_false
  intro c hc
  rcases deleteData_requests_shape _ _ _ c hc with ⟨hm, item, hitem, hurl⟩
  rw [isDeleteUnder_views, hurl, hm]
  simp only [Config.destinationCardsUrl, Config.destinationDecksUrl,
    decks_base_not_prefix, Bool.and_false]

/-- With the clear flag set, card-scoped DELETEs occur only in phase 4. -/
theorem deleteUnder_cards_phase (cfg : Config) (w : World)
    (h : cfg.clearDestination = true) :
    ∀ i : Nat, (((migratePhases cfg w).getD i []).any
        (Call.isDeleteUnder cfg.destinationCardsUrl) = true) → i = 4 := by
  intro i hi
  have hdel : ((migratePhases cfg w).getD i []).any Call.isDelete = true := by
    rw [List.any_eq_true] at hi ⊢
    rcases hi with ⟨c, hc, hp⟩
    exact ⟨c, hc, deleteUnder_implies_delete _ c hp⟩
  rcases delete_phases_clear cfg w h i hdel with h4 | h5
  · exact h4
  · exfalso
    subst h5
    rw [migratePhases_clear_eq cfg w h] at hi
    have hi2 : ((deleteData.requests cfg.destinationDecksUrl
        cfg.destinationViewsZoneId w.destinationDecks).map Call.views).any
          (Call.isDeleteUnder cfg.destinationCardsUrl) = true := hi
    rw [deckDeletes_not_under_cards cfg w] at hi2
    cases hi2

/-- With the clear flag set, deck-scoped DELETEs occur only in phase 5. -/
theorem deleteUnder_decks_phase (cfg : Config) (w : World)
    (h : cfg.clearDestination = true) :
    ∀ i : Nat, (((migratePhases cfg w).getD i []).any
        (Call.isDeleteUnder cfg.destinationDecksUrl) = true) → i = 5 := by
  intro i hi
  have hdel : ((migratePhases cfg w).getD i []).any Call.isDelete = true := by
    rw [List.any_eq_true] at hi ⊢
    rcases hi with ⟨c, hc, hp⟩
    exact ⟨c, hc, deleteUnder_implies_delete _ c hp⟩
  rcases delete_phases_clear cfg w h i hdel with h4 | h5
  · exfalso
    subst h4
    rw [migratePhases_clear_eq cfg w h] at hi
    have hi2 : ((deleteData.requests cfg.destinationCardsUrl
        cfg.destinationViewsZoneId w.destinationCards).map Call.views).any
          (Call.isDeleteUnder cfg.destinationDecksUrl) = true := hi
    rw [cardDeletes_not_under_decks cfg w] at hi2
    cases hi2
  · exact h5

/-- `migratePhases` with the clear flag unset, in phase-list normal form. -/
theorem migratePhases_noclear_eq (cfg : Config) (w : World)
    (h : cfg.clearDestination = false) :
    migratePhases cfg w =
      [[Call.token cfg.originalUaaUrl cfg.originalUaaCredentials],
       [Call.token cfg.destinationUaaUrl cfg.destinationUaaCredentials],
       [Call.views (getCall cfg.originalCardsUrl cfg.originalViewsZoneId)],
       [Call.views (postCall cfg.destinationCardsUrl cfg.destinationViewsZoneId
          (Json.arr (w.originCards.map (optJson Item.toJson))))],
       [Call.views (getCall cfg.destinationCardsUrl cfg.destinationViewsZoneId)],
       (addTags.requests cfg.destinationCardsUrl cfg.destinationViewsZoneId
          w.originCards).map Call.views,
       [Call.views (getCallQ cfg.originalDecksUrl "filter[include][cards]"
          cfg.originalViewsZoneId)],
       [Call.views (postCall cfg.destinationDecksUrl cfg.destinationViewsZoneId
          (Json.arr (w.originDecks.map (optJson Deck.toJson))))],
       (addTags.requests cfg.destinationDecksUrl cfg.destinationViewsZoneId
          (w.originDecks.map (Option.map deckToItem))).map Call.views,
       (associateStage.issued cfg w.originDecks).map Call.views] := by
  rw [migratePhases, if_neg (by simp [h])]
  rfl

/-- C7: with `clearDestination` set, every phase holding a destination DELETE
strictly precedes every phase holding a views POST (so all deletes are issued,
and have settled, before any create), and the card-deletion phase strictly
precedes the deck-deletion phase; with `clearDestination` unset, no phase of
the pipeline contains any DELETE call. -/
theorem clearDestination_delete_ordering (cfg : Config) (w : World) :
    (cfg.clearDestination = true →
      phasesBefore (migratePhases cfg w) Call.isDelete Call.isViewsPost
      ∧ phasesBefore (migratePhases cfg w)
          (Call.isDeleteUnder cfg.destinationCardsUrl)
          (Call.isDeleteUnder cfg.destinationDecksUrl))
    ∧ (cfg.clearDestination = false →
        ∀ phase ∈ migratePhases cfg w, ∀ c ∈ phase, c.isDelete = false) := by
  constructor
  · intro h
    constructor
    · intro i j hip hjq
      have hi2 := delete_phases_clear cfg w h i hip
      have hj2 := post_phases_clear cfg w h j hjq
      omega
    · intro i j hip hjq
      have hi2 := deleteUnder_cards_phase cfg w h i hip
      have hj2 := deleteUnder_decks_phase cfg w h j hjq
      omega
  · intro h phase hphase c hc
    have hGD : ((("GET" : String) == "DELETE")) = false := by decide
    have hPD : ((("POST" : String) == "DELETE")) = false := by decide
    have hpdel : ∀ c2 : ViewsCall, c2.method = "POST" →
        Call.isDelete (Call.views c2) = false := by
      intro c2 hc2
      rw [isDelete_views, hc2, hPD]
    rw [migratePhases_noclear_eq cfg w h] at hphase
    simp only [List.mem_cons, List.not_mem_nil, or_false] at hphase
    rcases hphase with rfl | rfl | rfl | rfl | rfl | rfl | rfl | rfl | rfl | rfl
    · rcases List.mem_singleton.mp hc with rfl
      rfl
    · rcases List.mem_singleton.mp hc with rfl
      rfl
    · rcases List.mem_singleton.mp hc with rfl
      simp [isDelete_views, getCall, hGD]
    · rcases List.mem_singleton.mp hc with rfl
      simp [isDelete_views, postCall, hPD]
    · rcases List.mem_singleton.mp hc with rfl
      simp [isDelete_views, getCall, hGD]
    · rcases List.mem_map.mp hc with ⟨vc, hvc, rfl⟩
      exact hpdel vc (addTags_requests_method _ _ _ vc hvc)
    · rcases List.mem_singleton.mp hc with rfl
      simp [isDelete_views, getCallQ, hGD]
    · rcases List.mem_singleton.mp hc with rfl
      simp [isDelete_views, postCall, hPD]
    · rcases List.mem_map.mp hc with ⟨vc, hvc, rfl⟩
      exact hpdel vc (addTags_requests_method _ _ _ vc hvc)
    · rcases List.mem_map.mp hc with ⟨vc, hvc, rfl⟩
      exact hpdel vc (associateStage_issued_method _ _ vc hvc)

/-- C7 witness: with the example configuration and pre-populated destination,
the card-deletion phase (4) precedes the deck-deletion phase (5). -/
theorem clearDestination_delete_ordering_witness :
    cfgEx.clearDestination = true ∧ (4 : Nat) < 5 :=
  ⟨rfl, ((clearDestination_delete_ordering cfgEx wEx).1 rfl).2 4 5 rfl rfl⟩

end MigrateViews
